import Mathlib

/-!
Verification of the Syncwave receive-side streaming protocol engine:
wire-format parsing (`parse_header`, `parse_audio_packet`), the jitter
buffer, the decode pipeline, latency tracking and throughput reporting,
as implemented in `receiver_enhanced.py` and `receiver_silent.py`.

Datagrams are modelled as lists of byte values (`List Nat`); multi-byte
fields are little-endian, matching `struct.unpack` with formats
`<I`, `<H`, `<Q` in the source.
-/

namespace Syncwave

/-- Read one byte at offset `i` (the Python code only indexes after a
length guard, so the default value is never observed on guarded paths). -/
def byteAt (data : List Nat) (i : Nat) : Nat := data.getD i 0

/-- `struct.unpack('<H', data[i:i+2])`: 16-bit little-endian read. -/
def u16le (data : List Nat) (i : Nat) : Nat :=
  byteAt data i + 256 * byteAt data (i + 1)

/-- `struct.unpack('<I', data[i:i+4])`: 32-bit little-endian read. -/
def u32le (data : List Nat) (i : Nat) : Nat :=
  byteAt data i + 256 * byteAt data (i + 1) + 65536 * byteAt data (i + 2) +
    16777216 * byteAt data (i + 3)

/-- `struct.unpack('<Q', data[i:i+8])`: 64-bit little-endian read. -/
def u64le (data : List Nat) (i : Nat) : Nat :=
  byteAt data i + 256 * byteAt data (i + 1) + 65536 * byteAt data (i + 2) +
    16777216 * byteAt data (i + 3) + 4294967296 * byteAt data (i + 4) +
    1099511627776 * byteAt data (i + 5) + 281474976710656 * byteAt data (i + 6) +
    72057594037927936 * byteAt data (i + 7)

/-- `HEADER_MAGIC = b"SYNC"` as byte values. -/
def HEADER_MAGIC : List Nat := [83, 89, 78, 67]

/-- `PACKET_TYPE_RAW = 0`. -/
def PACKET_TYPE_RAW : Nat := 0

/-- `PACKET_TYPE_OPUS = 1`. -/
def PACKET_TYPE_OPUS : Nat := 1

/-- `JITTER_BUFFER_SIZE = 10`. -/
def JITTER_BUFFER_SIZE : Nat := 10

/-- `JITTER_BUFFER_MIN = 3`. -/
def JITTER_BUFFER_MIN : Nat := 3

/-- Result of `receiver_enhanced.parse_header` (the `compression_name`
string is derived from `compression` and carries no extra information). -/
structure HeaderEnhanced where
  version : Nat
  sample_rate : Nat
  channels : Nat
  compression : Nat
deriving DecidableEq, Repr

/-- `receiver_enhanced.parse_header`: rejects datagrams shorter than 12
bytes or with wrong magic, then reads version at offset 4, sample rate
(`<I`) at 5, channels (`<H`) at 9, compression at 11. -/
def parse_header (data : List Nat) : Option HeaderEnhanced :=
  if data.length < 12 then none
  else if data.take 4 ≠ HEADER_MAGIC then none
  else some { version := byteAt data 4
              sample_rate := u32le data 5
              channels := u16le data 9
              compression := byteAt data 11 }

/-- Result of `receiver_silent.parse_header`. -/
structure HeaderSilent where
  sample_rate : Nat
  channels : Nat
deriving DecidableEq, Repr

/-- `receiver_silent.parse_header`: rejects datagrams shorter than 10
bytes or with wrong magic, then reads sample rate (`<I`) at offset 4 and
channels (`<H`) at offset 8. -/
def parse_header_silent (data : List Nat) : Option HeaderSilent :=
  if data.length < 10 then none
  else if data.take 4 ≠ HEADER_MAGIC then none
  else some { sample_rate := u32le data 4
              channels := u16le data 8 }

/-- Little-endian encoding of a 16-bit value (sender-side `struct.pack '<H'`). -/
def u16bytes (n : Nat) : List Nat := [n % 256, n / 256 % 256]

/-- Little-endian encoding of a 32-bit value (sender-side `struct.pack '<I'`). -/
def u32bytes (n : Nat) : List Nat :=
  [n % 256, n / 256 % 256, n / 65536 % 256, n / 16777216 % 256]

/-- Little-endian encoding of a 64-bit value (sender-side `struct.pack '<Q'`). -/
def u64bytes (n : Nat) : List Nat :=
  [n % 256, n / 256 % 256, n / 65536 % 256, n / 16777216 % 256,
   n / 4294967296 % 256, n / 1099511627776 % 256, n / 281474976710656 % 256,
   n / 72057594037927936 % 256]

/-- A valid 12-byte extended-layout header datagram:
`[MAGIC][VERSION][SAMPLE_RATE][CHANNELS][COMPRESSION]`. -/
def encodeHeader12 (version sample_rate channels compression : Nat) : List Nat :=
  HEADER_MAGIC ++ [version % 256] ++ u32bytes sample_rate ++
    u16bytes channels ++ [compression % 256]

/-- A valid 10-byte basic-layout header datagram:
`[MAGIC][SAMPLE_RATE][CHANNELS]`. -/
def encodeHeader10 (sample_rate channels : Nat) : List Nat :=
  HEADER_MAGIC ++ u32bytes sample_rate ++ u16bytes channels

theorem u32le_u32bytes (pre : List Nat) (h : pre.length = 4+1) (n : Nat)
    (hn : n < 4294967296) (post : List Nat) :
    u32le (pre ++ u32bytes n ++ post) 5 = n := by
  match pre, h with
  | [a, b, c, d, e], _ =>
    simp only [u32le, u32bytes, byteAt, List.cons_append, List.nil_append,
      List.getD, List.get?_eq_getElem?, List.append_assoc]
    simp only [List.getElem?_cons_succ, List.getElem?_cons_zero, Option.getD_some]
    omega

theorem u32le_u32bytes4 (pre : List Nat) (h : pre.length = 4) (n : Nat)
    (hn : n < 4294967296) (post : List Nat) :
    u32le (pre ++ u32bytes n ++ post) 4 = n := by
  match pre, h with
  | [a, b, c, d], _ =>
    simp only [u32le, u32bytes, byteAt, List.cons_append, List.nil_append,
      List.getD, List.get?_eq_getElem?, List.append_assoc]
    simp only [List.getElem?_cons_succ, List.getElem?_cons_zero, Option.getD_some]
    omega

theorem u16le_bytes_at9 (pre : List Nat) (h : pre.length = 9) (n : Nat)
    (hn : n < 65536) (post : List Nat) :
    u16le (pre ++ u16bytes n ++ post) 9 = n := by
  match pre, h with
  | [a, b, c, d, e, f, g, i, j], _ =>
    simp only [u16le, u16bytes, byteAt, List.cons_append, List.nil_append,
      List.getD, List.get?_eq_getElem?, List.append_assoc]
    simp only [List.getElem?_cons_succ, List.getElem?_cons_zero, Option.getD_some]
    omega

theorem u16le_bytes_at8 (pre : List Nat) (h : pre.length = 8) (n : Nat)
    (hn : n < 65536) (post : List Nat) :
    u16le (pre ++ u16bytes n ++ post) 8 = n := by
  match pre, h with
  | [a, b, c, d, e, f, g, i], _ =>
    simp only [u16le, u16bytes, byteAt, List.cons_append, List.nil_append,
      List.getD, List.get?_eq_getElem?, List.append_assoc]
    simp only [List.getElem?_cons_succ, List.getElem?_cons_zero, Option.getD_some]
    omega

/-- Result of `parse_audio_packet` in `receiver_enhanced.py`. -/
structure AudioPacket where
  type : Nat
  timestamp : Nat
  size : Nat
  data : List Nat
deriving DecidableEq, Repr

/-- `receiver_enhanced.parse_audio_packet`: rejects datagrams shorter than
the 11-byte prefix, then reads type at 0, timestamp (`<Q`) at 1, declared
size (`<H`) at 9, and takes `data[11:11+size]` (Python slicing clamps to
the end of the datagram). -/
def parse_audio_packet (data : List Nat) : Option AudioPacket :=
  if data.length < 11 then none
  else some { type := byteAt data 0
              timestamp := u64le data 1
              size := u16le data 9
              data := (data.drop 11).take (u16le data 9) }

/-- C1 counterexample: a 13-byte datagram with correct magic is accepted by
`receiver_enhanced.parse_header`, although the claim requires every datagram
whose length is neither 10 nor 12 bytes to fail; moreover a valid 10-byte
basic-layout header datagram is rejected by it, although the claim requires
every valid 10-byte header to parse. -/
theorem C1_counterexample :
    (encodeHeader12 1 48000 2 0 ++ [0]).length = 13 ∧
    (encodeHeader12 1 48000 2 0 ++ [0]).take 4 = HEADER_MAGIC ∧
    parse_header (encodeHeader12 1 48000 2 0 ++ [0]) ≠ none ∧
    parse_header (encodeHeader10 48000 2) = none := by
  refine ⟨by decide, by decide, by decide, by decide⟩

/-- C1 (amended): `receiver_enhanced.parse_header` handles only the 12-byte
extended layout and `receiver_silent.parse_header` only the 10-byte basic
layout; each accepts any datagram of at least its layout length (over-long
datagrams included) with correct magic, reading its fields little-endian at
the layout's fixed offsets — so every valid exact-length header datagram
parses with fields matching the encoded values — and each fails exactly on
wrong magic or on length below its layout minimum: neither requires the
length to be exactly 10 or 12. -/
theorem C1_parse_header_amended :
    (∀ data : List Nat, 12 ≤ data.length → data.take 4 = HEADER_MAGIC →
      parse_header data =
        some ⟨byteAt data 4, u32le data 5, u16le data 9, byteAt data 11⟩) ∧
    (∀ data : List Nat, 10 ≤ data.length → data.take 4 = HEADER_MAGIC →
      parse_header_silent data = some ⟨u32le data 4, u16le data 8⟩) ∧
    (∀ v sr ch comp : Nat, sr < 4294967296 → ch < 65536 →
      parse_header (encodeHeader12 v sr ch comp) =
        some ⟨v % 256, sr, ch, comp % 256⟩) ∧
    (∀ sr ch : Nat, sr < 4294967296 → ch < 65536 →
      parse_header_silent (encodeHeader10 sr ch) = some ⟨sr, ch⟩) ∧
    (∀ data : List Nat, data.length < 12 → parse_header data = none) ∧
    (∀ data : List Nat, data.take 4 ≠ HEADER_MAGIC → parse_header data = none) ∧
    (∀ data : List Nat, data.length < 10 → parse_header_silent data = none) ∧
    (∀ data : List Nat, data.take 4 ≠ HEADER_MAGIC →
      parse_header_silent data = none) := by
  refine ⟨?_, ?_, ?_, ?_, ?_, ?_, ?_, ?_⟩
  · intro data hlen hmagic
    simp [parse_header, Nat.not_lt.mpr hlen, hmagic]
  · intro data hlen hmagic
    simp [parse_header_silent, Nat.not_lt.mpr hlen, hmagic]
  · intro v sr ch comp hsr hch
    have hrate : u32le (encodeHeader12 v sr ch comp) 5 = sr := by
      have := u32le_u32bytes (HEADER_MAGIC ++ [v % 256]) (by simp [HEADER_MAGIC]) sr hsr
        (u16bytes ch ++ [comp % 256])
      simpa [encodeHeader12, List.append_assoc] using this
    have hchan : u16le (encodeHeader12 v sr ch comp) 9 = ch := by
      have := u16le_bytes_at9 (HEADER_MAGIC ++ [v % 256] ++ u32bytes sr)
        (by simp [HEADER_MAGIC, u32bytes]) ch hch [comp % 256]
      simpa [encodeHeader12, List.append_assoc] using this
    simp only [parse_header, encodeHeader12, HEADER_MAGIC, u32bytes, u16bytes,
      List.cons_append, List.nil_append] at hrate hchan ⊢
    simp only [List.length_cons, List.length_nil, byteAt, List.getD,
      List.get?_eq_getElem?, List.getElem?_cons_succ, List.getElem?_cons_zero,
      Option.getD_some, List.take]
    norm_num
    exact ⟨hrate, hchan⟩
  · intro sr ch hsr hch
    have hrate : u32le (encodeHeader10 sr ch) 4 = sr := by
      have := u32le_u32bytes4 HEADER_MAGIC (by decide) sr hsr (u16bytes ch)
      simpa [encodeHeader10, List.append_assoc] using this
    have hchan : u16le (encodeHeader10 sr ch) 8 = ch := by
      have := u16le_bytes_at8 (HEADER_MAGIC ++ u32bytes sr)
        (by simp [HEADER_MAGIC, u32bytes]) ch hch ([] : List Nat)
      simpa [encodeHeader10, List.append_assoc] using this
    simp only [parse_header_silent, encodeHeader10, HEADER_MAGIC, u32bytes,
      u16bytes, List.cons_append, List.nil_append] at hrate hchan ⊢
    simp only [List.length_cons, List.length_nil, List.take]
    norm_num
    exact ⟨hrate, hchan⟩
  · intro data h
    simp [parse_header, h]
  · intro data h
    simp only [parse_header]
    by_cases hl : data.length < 12 <;> simp [hl, h]
  · intro data h
    simp [parse_header_silent, h]
  · intro data h
    simp only [parse_header_silent]
    by_cases hl : data.length < 10 <;> simp [hl, h]

theorem C1_parse_header_amended_witness :
    (12 ≤ ([83, 89, 78, 67, 5, 0, 0, 0, 0, 1, 0, 1, 42] : List Nat).length ∧
      ([83, 89, 78, 67, 5, 0, 0, 0, 0, 1, 0, 1, 42] : List Nat).take 4 =
        HEADER_MAGIC ∧
      parse_header [83, 89, 78, 67, 5, 0, 0, 0, 0, 1, 0, 1, 42] =
        some ⟨byteAt [83, 89, 78, 67, 5, 0, 0, 0, 0, 1, 0, 1, 42] 4,
          u32le [83, 89, 78, 67, 5, 0, 0, 0, 0, 1, 0, 1, 42] 5,
          u16le [83, 89, 78, 67, 5, 0, 0, 0, 0, 1, 0, 1, 42] 9,
          byteAt [83, 89, 78, 67, 5, 0, 0, 0, 0, 1, 0, 1, 42] 11⟩) ∧
    (10 ≤ ([83, 89, 78, 67, 0, 0, 0, 0, 2, 0, 255] : List Nat).length ∧
      ([83, 89, 78, 67, 0, 0, 0, 0, 2, 0, 255] : List Nat).take 4 =
        HEADER_MAGIC ∧
      parse_header_silent [83, 89, 78, 67, 0, 0, 0, 0, 2, 0, 255] =
        some ⟨u32le [83, 89, 78, 67, 0, 0, 0, 0, 2, 0, 255] 4,
          u16le [83, 89, 78, 67, 0, 0, 0, 0, 2, 0, 255] 8⟩) ∧
    parse_header (encodeHeader12 1 48000 2 1) = some ⟨1, 48000, 2, 1⟩ ∧
    parse_header_silent (encodeHeader10 44100 2) = some ⟨44100, 2⟩ ∧
    parse_header [83, 89] = none ∧
    parse_header_silent [0, 0, 0, 0, 0, 0, 0, 0, 0, 0] = none := by
  refine ⟨⟨by decide, by decide,
      C1_parse_header_amended.1 [83, 89, 78, 67, 5, 0, 0, 0, 0, 1, 0, 1, 42]
        (by decide) (by decide)⟩,
    ⟨by decide, by decide,
      C1_parse_header_amended.2.1 [83, 89, 78, 67, 0, 0, 0, 0, 2, 0, 255]
        (by decide) (by decide)⟩,
    C1_parse_header_amended.2.2.1 1 48000 2 1 (by norm_num) (by norm_num),
    C1_parse_header_amended.2.2.2.1 44100 2 (by norm_num) (by norm_num),
    C1_parse_header_amended.2.2.2.2.1 [83, 89] (by decide),
    C1_parse_header_amended.2.2.2.2.2.2.2 [0, 0, 0, 0, 0, 0, 0, 0, 0, 0]
      (by decide)⟩

/-- C4: for every audio datagram of length at least 11, `parse_audio_packet`
succeeds, the returned payload never extends past the end of the datagram
(its length is at most the bytes remaining after the 11-byte prefix), and
when the declared 16-bit size exceeds the remaining bytes the payload is
clamped to exactly the remaining bytes. -/
theorem C4_payload_clamped (data : List Nat) (h : 11 ≤ data.length) :
    ∃ pkt : AudioPacket, parse_audio_packet data = some pkt ∧
      pkt.data.length ≤ data.length - 11 ∧
      (data.length - 11 < pkt.size → pkt.data.length = data.length - 11) := by
  refine ⟨{ type := byteAt data 0, timestamp := u64le data 1, size := u16le data 9,
            data := (data.drop 11).take (u16le data 9) },
    by simp [parse_audio_packet, Nat.not_lt.mpr h], ?_, ?_⟩ <;>
    simp only [List.length_take, List.length_drop] <;> omega

theorem C4_payload_clamped_witness :
    11 ≤ ([0, 0, 0, 0, 0, 0, 0, 0, 0, 9, 0, 1, 2] : List Nat).length ∧
    ∃ pkt : AudioPacket,
      parse_audio_packet [0, 0, 0, 0, 0, 0, 0, 0, 0, 9, 0, 1, 2] = some pkt ∧
      pkt.data.length ≤ 2 ∧ (2 < pkt.size → pkt.data.length = 2) :=
  ⟨by decide, C4_payload_clamped [0, 0, 0, 0, 0, 0, 0, 0, 0, 9, 0, 1, 2] (by decide)⟩

/-- C10: `parse_audio_packet` succeeds on every input of length at least 11
regardless of the type byte, the returned `size` field always equals the
declared little-endian uint16 from the wire, and on a concrete clamped input
the returned `size` strictly exceeds the returned payload length. -/
theorem C10_size_field_declared :
    (∀ data : List Nat, 11 ≤ data.length →
      ∃ pkt : AudioPacket, parse_audio_packet data = some pkt ∧
        pkt.type = byteAt data 0 ∧ pkt.size = u16le data 9) ∧
    (∃ pkt : AudioPacket,
      parse_audio_packet [7, 0, 0, 0, 0, 0, 0, 0, 0, 5, 0] = some pkt ∧
        pkt.size = 5 ∧ pkt.data.length = 0 ∧ pkt.data.length < pkt.size) := by
  constructor
  · intro data h
    exact ⟨{ type := byteAt data 0, timestamp := u64le data 1, size := u16le data 9,
             data := (data.drop 11).take (u16le data 9) },
      by simp [parse_audio_packet, Nat.not_lt.mpr h], rfl, rfl⟩
  · exact ⟨{ type := 7, timestamp := 0, size := 5, data := [] },
      by decide, by decide, by decide, by decide⟩

theorem C10_size_field_declared_witness :
    11 ≤ ([3, 0, 0, 0, 0, 0, 0, 0, 0, 2, 1, 8] : List Nat).length ∧
    ∃ pkt : AudioPacket,
      parse_audio_packet [3, 0, 0, 0, 0, 0, 0, 0, 0, 2, 1, 8] = some pkt ∧
      pkt.type = byteAt [3, 0, 0, 0, 0, 0, 0, 0, 0, 2, 1, 8] 0 ∧
      pkt.size = u16le [3, 0, 0, 0, 0, 0, 0, 0, 0, 2, 1, 8] 9 :=
  ⟨by decide, C10_size_field_declared.1 [3, 0, 0, 0, 0, 0, 0, 0, 0, 2, 1, 8] (by decide)⟩

/-- `JitterBuffer.add`: `self.buffer.append(data)` on a
`collections.deque(maxlen=JITTER_BUFFER_SIZE)` — appending to a deque at
its maximum length first discards the oldest (leftmost) element. The list
holds frames oldest-first. -/
def jbAdd (buf : List α) (a : α) : List α :=
  if buf.length < JITTER_BUFFER_SIZE then buf ++ [a] else buf.tail ++ [a]

/-- `JitterBuffer.get`: `popleft` only when at least `JITTER_BUFFER_MIN`
packets are buffered, otherwise `None` and the buffer is unchanged. -/
def jbGet (buf : List α) : Option α × List α :=
  if JITTER_BUFFER_MIN ≤ buf.length then (buf.head?, buf.tail) else (none, buf)

/-- An abstract client operation on the jitter buffer. -/
inductive JBOp (α : Type) where
  | push (a : α)
  | pop

/-- A jitter-buffer execution trace: current buffer contents, the frames
returned by `get` so far, and all frames pushed so far. -/
structure JBTrace (α : Type) where
  buffer : List α
  outputs : List α
  pushed : List α

/-- One client operation against the jitter buffer. -/
def jbStep (s : JBTrace α) : JBOp α → JBTrace α
  | .push a => { s with buffer := jbAdd s.buffer a, pushed := s.pushed ++ [a] }
  | .pop =>
    let r := jbGet s.buffer
    { s with buffer := r.2, outputs := s.outputs ++ r.1.toList }

/-- Run a sequence of operations from an empty jitter buffer. -/
def jbRun (ops : List (JBOp α)) : JBTrace α := ops.foldl jbStep ⟨[], [], []⟩

theorem jbAdd_length_le (buf : List α) (a : α)
    (h : buf.length ≤ JITTER_BUFFER_SIZE) :
    (jbAdd buf a).length ≤ JITTER_BUFFER_SIZE := by
  simp only [jbAdd, JITTER_BUFFER_SIZE] at h ⊢
  split <;> simp [List.length_tail] <;> omega

theorem head_toList_append_tail (buf : List α) :
    buf.head?.toList ++ buf.tail = buf := by
  cases buf <;> rfl

theorem jbStep_preserves (s : JBTrace α) (op : JBOp α)
    (h1 : s.buffer.length ≤ JITTER_BUFFER_SIZE)
    (h2 : List.Sublist (s.outputs ++ s.buffer) s.pushed) :
    (jbStep s op).buffer.length ≤ JITTER_BUFFER_SIZE ∧
    List.Sublist ((jbStep s op).outputs ++ (jbStep s op).buffer) (jbStep s op).pushed := by
  cases op with
  | push a =>
    refine ⟨jbAdd_length_le s.buffer a h1, ?_⟩
    simp only [jbStep, jbAdd]
    split
    · rw [← List.append_assoc]
      exact h2.append (List.Sublist.refl [a])
    · rw [← List.append_assoc]
      refine List.Sublist.append ?_ (List.Sublist.refl [a])
      exact ((s.buffer.tail_sublist.append_left s.outputs).trans h2)
  | pop =>
    simp only [jbStep, jbGet]
    split
    · refine ⟨?_, ?_⟩
      · simpa [List.length_tail] using by omega
      · simpa [List.append_assoc, head_toList_append_tail] using h2
    · simpa using ⟨h1, h2⟩

theorem jbRun_aux (ops : List (JBOp α)) (s : JBTrace α)
    (h1 : s.buffer.length ≤ JITTER_BUFFER_SIZE)
    (h2 : List.Sublist (s.outputs ++ s.buffer) s.pushed) :
    (ops.foldl jbStep s).buffer.length ≤ JITTER_BUFFER_SIZE ∧
    List.Sublist ((ops.foldl jbStep s).outputs ++ (ops.foldl jbStep s).buffer)
      (ops.foldl jbStep s).pushed := by
  induction ops generalizing s with
  | nil => exact ⟨h1, h2⟩
  | cons op rest ih =>
    have hp := jbStep_preserves s op h1 h2
    exact ih (jbStep s op) hp.1 hp.2

/-- C3: over any sequence of pushes and pops from empty, the occupancy never
exceeds `JITTER_BUFFER_SIZE`; `get` returns `None` (buffer unchanged)
whenever occupancy is below `JITTER_BUFFER_MIN`; whenever occupancy is at
least the watermark, `get` returns the oldest buffered frame; and the frames
ever returned, followed by those still buffered, form an in-order
subsequence of the frames pushed (FIFO order, some frames possibly evicted). -/
theorem C3_jitter_buffer_invariants (ops : List (JBOp Nat)) (s t : List Nat)
    (hs : s.length < JITTER_BUFFER_MIN) (ht : JITTER_BUFFER_MIN ≤ t.length) :
    (jbRun ops).buffer.length ≤ JITTER_BUFFER_SIZE ∧
    jbGet s = (none, s) ∧
    (jbGet t).1 = t.head? ∧ (jbGet t).2 = t.tail ∧
    List.Sublist ((jbRun ops).outputs ++ (jbRun ops).buffer) (jbRun ops).pushed := by
  have hrun := jbRun_aux ops ⟨[], [], []⟩ (by simp [JITTER_BUFFER_SIZE]) (by simp)
  refine ⟨hrun.1, ?_, ?_, ?_, hrun.2⟩
  · simp [jbGet, Nat.not_le.mpr hs]
  · simp [jbGet, ht]
  · simp [jbGet, ht]

theorem C3_jitter_buffer_invariants_witness :
    ([] : List Nat).length < JITTER_BUFFER_MIN ∧
    JITTER_BUFFER_MIN ≤ ([4, 5, 6] : List Nat).length ∧
    ((jbRun [JBOp.push 1, JBOp.push 2, JBOp.push 3, JBOp.pop]).buffer.length ≤
        JITTER_BUFFER_SIZE ∧
      jbGet ([] : List Nat) = (none, []) ∧
      (jbGet [4, 5, 6]).1 = ([4, 5, 6] : List Nat).head? ∧
      (jbGet [4, 5, 6]).2 = ([4, 5, 6] : List Nat).tail ∧
      List.Sublist
        ((jbRun [JBOp.push 1, JBOp.push 2, JBOp.push 3, JBOp.pop]).outputs ++
          (jbRun [JBOp.push 1, JBOp.push 2, JBOp.push 3, JBOp.pop]).buffer)
        (jbRun [JBOp.push 1, JBOp.push 2, JBOp.push 3, JBOp.pop]).pushed) :=
  ⟨by decide, by decide,
    C3_jitter_buffer_invariants [JBOp.push 1, JBOp.push 2, JBOp.push 3, JBOp.pop]
      [] [4, 5, 6] (by decide) (by decide)⟩

theorem foldl_jbAdd_drop (xs : List α) :
    List.foldl jbAdd [] xs = xs.drop (xs.length - JITTER_BUFFER_SIZE) := by
  have hsz : JITTER_BUFFER_SIZE = 10 := rfl
  induction xs using List.reverseRecOn with
  | nil => rfl
  | append_singleton xs x ih =>
    rw [List.foldl_append, List.foldl_cons, List.foldl_nil, ih]
    by_cases hlt : xs.length < JITTER_BUFFER_SIZE
    · have h1 : xs.length - JITTER_BUFFER_SIZE = 0 := by omega
      have h0 : xs.length + 1 - JITTER_BUFFER_SIZE = 0 := by omega
      rw [h1, List.drop_zero, List.length_append, List.length_singleton, h0,
        List.drop_zero]
      simp [jbAdd, hlt]
    · have hif : ¬ ((xs.drop (xs.length - JITTER_BUFFER_SIZE)).length <
          JITTER_BUFFER_SIZE) := by
        rw [List.length_drop]; omega
      rw [List.length_append, List.length_singleton]
      simp only [jbAdd, if_neg hif]
      rw [List.tail_drop,
        List.drop_append_of_le_length
          (by omega : xs.length + 1 - JITTER_BUFFER_SIZE ≤ xs.length)]
      congr 2
      omega

/-- C5: pushing onto a jitter buffer already at capacity evicts the oldest
frame and appends the new one, keeping the occupancy at capacity; and after
any sequence of pushes from empty, the buffer holds exactly the
`JITTER_BUFFER_SIZE` most recently pushed frames in push order. -/
theorem C5_drop_oldest (buf : List Nat) (a : Nat)
    (hfull : buf.length = JITTER_BUFFER_SIZE) :
    jbAdd buf a = buf.tail ++ [a] ∧
    (jbAdd buf a).length = JITTER_BUFFER_SIZE ∧
    (∀ xs : List Nat,
      List.foldl jbAdd [] xs = xs.drop (xs.length - JITTER_BUFFER_SIZE)) := by
  have h10 : JITTER_BUFFER_SIZE = 10 := rfl
  have hlt : ¬ buf.length < JITTER_BUFFER_SIZE := by rw [hfull]; exact lt_irrefl _
  refine ⟨?_, ?_, fun xs => foldl_jbAdd_drop xs⟩
  · simp [jbAdd, if_neg hlt]
  · show (if buf.length < JITTER_BUFFER_SIZE then buf ++ [a]
        else buf.tail ++ [a]).length = JITTER_BUFFER_SIZE
    rw [if_neg hlt, List.length_append, List.length_tail, hfull]
    simp only [List.length_cons, List.length_nil]
    omega

theorem C5_drop_oldest_witness :
    ([0, 1, 2, 3, 4, 5, 6, 7, 8, 9] : List Nat).length = JITTER_BUFFER_SIZE ∧
    (jbAdd [0, 1, 2, 3, 4, 5, 6, 7, 8, 9] 10 =
        ([0, 1, 2, 3, 4, 5, 6, 7, 8, 9] : List Nat).tail ++ [10] ∧
      (jbAdd [0, 1, 2, 3, 4, 5, 6, 7, 8, 9] 10).length = JITTER_BUFFER_SIZE ∧
      (∀ xs : List Nat,
        List.foldl jbAdd [] xs = xs.drop (xs.length - JITTER_BUFFER_SIZE))) :=
  ⟨by decide, C5_drop_oldest [0, 1, 2, 3, 4, 5, 6, 7, 8, 9] 10 (by decide)⟩

/-- The session parameters fixed when the first valid header is parsed
(receiver_enhanced lines 110-139). -/
structure SessionConfig where
  sample_rate : Nat
  channels : Nat
  compression : Nat
deriving DecidableEq, Repr

/-- The streaming-loop state: the immutable session config and decoder
capability (`none` when compression is off, the Opus library is missing,
or decoder setup failed), the statistics accumulators initialised at
session creation (lines 156-161), the jitter buffer, and the frames
already written to the audio stream. A decoder maps a compressed payload
to `some` PCM frame, or `none` when `decode_float` raises. -/
structure RecvState where
  config : SessionConfig
  decoder : Option (List Nat → Option (List Nat))
  packet_count : Nat
  bytes_received : Nat
  total_latency_us : Int
  latency_count : Nat
  jitter_buffer : List (List Nat)
  played : List (List Nat)

/-- `audio_data = jitter_buffer.get()` followed by
`if audio_data: stream.write(audio_data)` (lines 200-203); both `None`
and the empty bytes object are falsy and skip the write. -/
def playStep (s : RecvState) : RecvState :=
  let r := jbGet s.jitter_buffer
  match r.1 with
  | some frame =>
    if frame = [] then { s with jitter_buffer := r.2 }
    else { s with jitter_buffer := r.2, played := s.played ++ [frame] }
  | none => { s with jitter_buffer := r.2 }

/-- One iteration of the streaming loop body (lines 165-203) on datagram
`data` received at local time `rt` in µs: skip duplicate header datagrams
(exact length 12 and magic), offer to `parse_audio_packet` (failure skips),
update the packet/byte counters and the latency accumulators, then decode
(`type == PACKET_TYPE_OPUS and decoder`) or pass the payload through raw,
push into the jitter buffer and pop-and-play once. A decode error drops
the frame via `continue`. -/
def recvStep (s : RecvState) (data : List Nat) (rt : Int) : RecvState :=
  if data.length = 12 ∧ data.take 4 = HEADER_MAGIC then s
  else
    match parse_audio_packet data with
    | none => s
    | some pkt =>
      let s1 : RecvState :=
        { s with packet_count := s.packet_count + 1
                 bytes_received := s.bytes_received + data.length
                 total_latency_us := s.total_latency_us + (rt - (pkt.timestamp : Int))
                 latency_count := s.latency_count + 1 }
      match s.decoder with
      | some dec =>
        if pkt.type = PACKET_TYPE_OPUS then
          match dec pkt.data with
          | some pcm =>
            playStep { s1 with jitter_buffer := jbAdd s1.jitter_buffer pcm }
          | none => s1
        else
          playStep { s1 with jitter_buffer := jbAdd s1.jitter_buffer pkt.data }
      | none =>
        playStep { s1 with jitter_buffer := jbAdd s1.jitter_buffer pkt.data }

theorem playStep_packet_count (s : RecvState) :
    (playStep s).packet_count = s.packet_count := by
  cases hj : (jbGet s.jitter_buffer).1 with
  | none => simp [playStep, hj]
  | some frame => by_cases hf : frame = [] <;> simp [playStep, hj, hf]

theorem playStep_bytes_received (s : RecvState) :
    (playStep s).bytes_received = s.bytes_received := by
  cases hj : (jbGet s.jitter_buffer).1 with
  | none => simp [playStep, hj]
  | some frame => by_cases hf : frame = [] <;> simp [playStep, hj, hf]

theorem playStep_total_latency (s : RecvState) :
    (playStep s).total_latency_us = s.total_latency_us := by
  cases hj : (jbGet s.jitter_buffer).1 with
  | none => simp [playStep, hj]
  | some frame => by_cases hf : frame = [] <;> simp [playStep, hj, hf]

theorem playStep_latency_count (s : RecvState) :
    (playStep s).latency_count = s.latency_count := by
  cases hj : (jbGet s.jitter_buffer).1 with
  | none => simp [playStep, hj]
  | some frame => by_cases hf : frame = [] <;> simp [playStep, hj, hf]

theorem playStep_config (s : RecvState) :
    (playStep s).config = s.config := by
  cases hj : (jbGet s.jitter_buffer).1 with
  | none => simp [playStep, hj]
  | some frame => by_cases hf : frame = [] <;> simp [playStep, hj, hf]

theorem playStep_decoder (s : RecvState) :
    (playStep s).decoder = s.decoder := by
  cases hj : (jbGet s.jitter_buffer).1 with
  | none => simp [playStep, hj]
  | some frame => by_cases hf : frame = [] <;> simp [playStep, hj, hf]

theorem recvStep_stats (s : RecvState) (data : List Nat) (rt : Int)
    (pkt : AudioPacket) (hp : parse_audio_packet data = some pkt)
    (hnh : ¬ (data.length = 12 ∧ data.take 4 = HEADER_MAGIC)) :
    (recvStep s data rt).packet_count = s.packet_count + 1 ∧
    (recvStep s data rt).bytes_received = s.bytes_received + data.length ∧
    (recvStep s data rt).total_latency_us =
      s.total_latency_us + (rt - (pkt.timestamp : Int)) ∧
    (recvStep s data rt).latency_count = s.latency_count + 1 := by
  unfold recvStep
  rw [if_neg hnh, hp]
  cases hd : s.decoder with
  | none =>
    simp [playStep_packet_count, playStep_bytes_received, playStep_total_latency,
      playStep_latency_count]
  | some dec =>
    by_cases hty : pkt.type = PACKET_TYPE_OPUS
    · cases hfail : dec pkt.data with
      | none => simp [hty, hfail]
      | some pcm =>
        simp [hty, hfail, playStep_packet_count, playStep_bytes_received,
          playStep_total_latency, playStep_latency_count]
    · simp [hty, playStep_packet_count, playStep_bytes_received,
        playStep_total_latency, playStep_latency_count]

theorem recvStep_skip (s : RecvState) (data : List Nat) (rt : Int)
    (h : (data.length = 12 ∧ data.take 4 = HEADER_MAGIC) ∨
      parse_audio_packet data = none) :
    recvStep s data rt = s := by
  unfold recvStep
  rcases h with h | h
  · rw [if_pos h]
  · split
    · rfl
    · rw [h]

/-- A session whose header declared compression (`compression = 1`) but
for which no decoder capability is available (`decoder = none`), with all
statistics at their session-creation values. -/
def noDecoderState : RecvState :=
  { config := { sample_rate := 48000, channels := 2, compression := 1 }
    decoder := none
    packet_count := 0
    bytes_received := 0
    total_latency_us := 0
    latency_count := 0
    jitter_buffer := []
    played := [] }

/-- An audio datagram declaring a compressed frame: type byte
`PACKET_TYPE_OPUS`, origin timestamp 0, declared size 3, payload
`[9, 9, 9]` (opaque compressed bytes, not PCM). -/
def opusDatagram : List Nat := [1, 0, 0, 0, 0, 0, 0, 0, 0, 3, 0, 9, 9, 9]

/-- C2: the claim (and the spec's stated intent) is that a compressed-typed
frame arriving while no decoder capability is available is dropped or
handled by a clean fallback; the code instead falls into the raw branch of
`if packet['type'] == PACKET_TYPE_OPUS and decoder:` and pushes the
undecoded compressed payload bytes into the jitter buffer as if they were
PCM. Evaluated at the failing input: the type byte declares Opus, the
session has no decoder, and after the step the jitter buffer holds the raw
compressed payload. -/
theorem C2_compressed_pushed_raw :
    (parse_audio_packet opusDatagram).map AudioPacket.type =
      some PACKET_TYPE_OPUS ∧
    noDecoderState.decoder = none ∧
    noDecoderState.config.compression = 1 ∧
    (recvStep noDecoderState opusDatagram 0).jitter_buffer = [[9, 9, 9]] := by
  refine ⟨by decide, rfl, rfl, by decide⟩

/-- C6 counterexample: negative latency samples are not filtered, so a frame
whose origin timestamp (1,000,000 µs) is ahead of the local receive clock
(0 µs) makes the cumulative latency sum strictly decrease across a step —
the stats accumulator is not componentwise monotonically non-decreasing. -/
theorem C6_counterexample :
    (recvStep noDecoderState [0, 64, 66, 15, 0, 0, 0, 0, 0, 0, 0] 0).total_latency_us
      < noDecoderState.total_latency_us := by decide

/-- C6 (amended): over every streaming-loop step the packet count,
cumulative bytes and latency count are monotonically non-decreasing (reset
only at session creation, before the loop); the cumulative latency sum is
non-decreasing on every frame whose origin timestamp does not exceed the
local receive time, but a negative latency sample — unfiltered by design —
strictly decreases it. -/
theorem C6_stats_monotone_amended (s : RecvState) (data : List Nat) (rt : Int) :
    s.packet_count ≤ (recvStep s data rt).packet_count ∧
    s.bytes_received ≤ (recvStep s data rt).bytes_received ∧
    s.latency_count ≤ (recvStep s data rt).latency_count ∧
    (∀ pkt : AudioPacket, parse_audio_packet data = some pkt →
      (pkt.timestamp : Int) ≤ rt →
      s.total_latency_us ≤ (recvStep s data rt).total_latency_us) := by
  by_cases hnh : data.length = 12 ∧ data.take 4 = HEADER_MAGIC
  · rw [recvStep_skip s data rt (Or.inl hnh)]
    exact ⟨le_refl _, le_refl _, le_refl _, fun pkt hp hle => le_refl _⟩
  · cases hp : parse_audio_packet data with
    | none =>
      rw [recvStep_skip s data rt (Or.inr hp)]
      exact ⟨le_refl _, le_refl _, le_refl _, fun pkt hpk hle => le_refl _⟩
    | some pkt =>
      obtain ⟨e1, e2, e3, e4⟩ := recvStep_stats s data rt pkt hp hnh
      refine ⟨by omega, by omega, by omega, ?_⟩
      intro pkt2 hp2 hle
      cases hp2
      rw [e3]
      omega

theorem C6_stats_monotone_amended_witness :
    ((noDecoderState.packet_count ≤
        (recvStep noDecoderState opusDatagram 50).packet_count ∧
      noDecoderState.bytes_received ≤
        (recvStep noDecoderState opusDatagram 50).bytes_received ∧
      noDecoderState.latency_count ≤
        (recvStep noDecoderState opusDatagram 50).latency_count ∧
      (∀ pkt : AudioPacket, parse_audio_packet opusDatagram = some pkt →
        (pkt.timestamp : Int) ≤ 50 →
        noDecoderState.total_latency_us ≤
          (recvStep noDecoderState opusDatagram 50).total_latency_us))) :=
  C6_stats_monotone_amended noDecoderState opusDatagram 50

/-- C7: for every audio datagram that parses (and is not skipped as a
duplicate header), the latency sample accumulated into the session-long
running sum is exactly the local receive timestamp minus the frame's
origin timestamp in µs, and the session-long sample count grows by one;
in particular a frame originated at time T and received at T + 5000 µs
contributes exactly 5000 µs. -/
theorem C7_latency_sample (s : RecvState) (data : List Nat) (rt : Int)
    (pkt : AudioPacket) (hp : parse_audio_packet data = some pkt)
    (hnh : ¬ (data.length = 12 ∧ data.take 4 = HEADER_MAGIC)) :
    (recvStep s data rt).total_latency_us =
      s.total_latency_us + (rt - (pkt.timestamp : Int)) ∧
    (recvStep s data rt).latency_count = s.latency_count + 1 ∧
    (∀ T : Int, rt = T + 5000 → (pkt.timestamp : Int) = T →
      (recvStep s data rt).total_latency_us = s.total_latency_us + 5000) := by
  obtain ⟨_, _, e3, e4⟩ := recvStep_stats s data rt pkt hp hnh
  refine ⟨e3, e4, ?_⟩
  intro T hrt hts
  rw [e3, hrt, hts]
  ring

theorem C7_latency_sample_witness :
    parse_audio_packet [0, 77, 0, 0, 0, 0, 0, 0, 0, 0, 0] =
      some { type := 0, timestamp := 77, size := 0, data := [] } ∧
    ¬ (([0, 77, 0, 0, 0, 0, 0, 0, 0, 0, 0] : List Nat).length = 12 ∧
        ([0, 77, 0, 0, 0, 0, 0, 0, 0, 0, 0] : List Nat).take 4 = HEADER_MAGIC) ∧
    ((recvStep noDecoderState [0, 77, 0, 0, 0, 0, 0, 0, 0, 0, 0] 5077).total_latency_us =
        noDecoderState.total_latency_us + (5077 - (77 : Int)) ∧
      (recvStep noDecoderState [0, 77, 0, 0, 0, 0, 0, 0, 0, 0, 0] 5077).latency_count =
        noDecoderState.latency_count + 1 ∧
      (∀ T : Int, (5077 : Int) = T + 5000 → ((77 : Nat) : Int) = T →
        (recvStep noDecoderState [0, 77, 0, 0, 0, 0, 0, 0, 0, 0, 0] 5077).total_latency_us =
          noDecoderState.total_latency_us + 5000)) :=
  ⟨by decide, by decide,
    C7_latency_sample noDecoderState [0, 77, 0, 0, 0, 0, 0, 0, 0, 0, 0] 5077
      { type := 0, timestamp := 77, size := 0, data := [] } (by decide) (by decide)⟩

/-- C8: when the session holds a decoder and a parsed compressed-typed frame
fails to decode (a `DecodeError` from `decode_float`), that single frame is
dropped: the step completes normally (the loop continues to the next
datagram rather than propagating the error) with the jitter buffer, the
played output and the session's config and decoder all unchanged. -/
theorem C8_decode_error_drops_frame (s : RecvState) (data : List Nat) (rt : Int)
    (pkt : AudioPacket) (dec : List Nat → Option (List Nat))
    (hdec : s.decoder = some dec)
    (hp : parse_audio_packet data = some pkt)
    (hty : pkt.type = PACKET_TYPE_OPUS)
    (hfail : dec pkt.data = none)
    (hnh : ¬ (data.length = 12 ∧ data.take 4 = HEADER_MAGIC)) :
    (recvStep s data rt).jitter_buffer = s.jitter_buffer ∧
    (recvStep s data rt).played = s.played ∧
    (recvStep s data rt).config = s.config ∧
    (recvStep s data rt).decoder = s.decoder := by
  unfold recvStep
  rw [if_neg hnh, hp]
  simp [hdec, hty, hfail]

/-- A session whose decoder capability is present but rejects every payload
(models `decode_float` raising `DecodeError`). -/
def failingDecoder : List Nat → Option (List Nat) := fun _ => none

/-- Like `noDecoderState` but with the always-failing decoder installed. -/
def failDecoderState : RecvState :=
  { config := { sample_rate := 48000, channels := 2, compression := 1 }
    decoder := some failingDecoder
    packet_count := 0
    bytes_received := 0
    total_latency_us := 0
    latency_count := 0
    jitter_buffer := [[1, 2], [3, 4]]
    played := [[0]] }

theorem C8_decode_error_drops_frame_witness :
    failDecoderState.decoder = some failingDecoder ∧
    parse_audio_packet opusDatagram =
      some { type := 1, timestamp := 0, size := 3, data := [9, 9, 9] } ∧
    ({ type := 1, timestamp := 0, size := 3, data := [9, 9, 9] } : AudioPacket).type =
      PACKET_TYPE_OPUS ∧
    failingDecoder [9, 9, 9] = none ∧
    ¬ (opusDatagram.length = 12 ∧ opusDatagram.take 4 = HEADER_MAGIC) ∧
    ((recvStep failDecoderState opusDatagram 0).jitter_buffer =
        failDecoderState.jitter_buffer ∧
      (recvStep failDecoderState opusDatagram 0).played = failDecoderState.played ∧
      (recvStep failDecoderState opusDatagram 0).config = failDecoderState.config ∧
      (recvStep failDecoderState opusDatagram 0).decoder = failDecoderState.decoder) :=
  ⟨rfl, by decide, by decide, rfl, by decide,
    C8_decode_error_drops_frame failDecoderState opusDatagram 0
      { type := 1, timestamp := 0, size := 3, data := [9, 9, 9] } failingDecoder
      rfl (by decide) (by decide) rfl (by decide)⟩

/-- Throughput figure printed every 2 seconds and in the final summary:
`kbps = (bytes_received * 8) / (elapsed * 1000)` where
`elapsed = now - start_time` spans the whole session (lines 206-209 and
79-82 of the silent receiver). -/
def reportKbps (bytes_received elapsed : ℚ) : ℚ :=
  (bytes_received * 8) / (elapsed * 1000)

/-- C9: the reported throughput equals cumulative session bytes times 8
divided by whole-session elapsed seconds times 1000 (kbps over the whole
session, since `elapsed` is measured from `start_time`, not from the last
report); 1,000,000 bytes over 8 elapsed seconds reports exactly 1000 kbps. -/
theorem C9_throughput_whole_session (now start : ℚ) (h : now - start = 8) :
    (∀ b : ℚ, reportKbps b (now - start) = b * 8 / ((now - start) * 1000)) ∧
    reportKbps 1000000 (now - start) = 1000 := by
  refine ⟨fun b => rfl, ?_⟩
  rw [h, reportKbps]
  norm_num

theorem C9_throughput_whole_session_witness :
    ((9 : ℚ) - 1 = 8) ∧
    ((∀ b : ℚ, reportKbps b ((9 : ℚ) - 1) = b * 8 / (((9 : ℚ) - 1) * 1000)) ∧
      reportKbps 1000000 ((9 : ℚ) - 1) = 1000) :=
  ⟨by norm_num, C9_throughput_whole_session 9 1 (by norm_num)⟩

end Syncwave
